import Mathlib

/-!
# WaveQL — verification of the query planner, execution engine and adapters

Shallow embedding of the WaveQL sources (`waveql/query_planner.py`,
`waveql/cursor.py`, `waveql/adapters/servicenow.py`, `waveql/adapters/jira.py`)
together with theorems settling the behavioural claims about predicate
extraction, the pushdown/fallback engine, mutation guards, pagination and
JQL translation.

Conventions of the embedding:
* Python values flowing through predicates are modelled by `PyVal`.
  Python floats appear only as the text of an (unsigned) numeric SQL literal
  containing a dot, so they are carried verbatim as that text.
* Python exceptions are modelled with `Except` / explicit outcome types.
* External I/O (the HTTP transport, the DuckDB engine) is modelled by
  function parameters; the side effects the claims talk about (register /
  execute / unregister on the local engine, HTTP requests issued) are
  returned as explicit event traces.
-/

namespace WaveQL

/-! ## Python string primitives

The embedding implements the handful of Python `str` operations the sources
use as computable functions over the string's character list (the Python
behaviour on the ASCII inputs that occur here). -/

/-- The characters Python treats as ASCII whitespace (`str.strip`, `\s`). -/
def pySpaceChar (c : Char) : Bool :=
  c = ' ' || c = '\t' || c = '\n' || c = '\x0d' || c = '\x0b' || c = '\x0c'

/-- Python `str.strip()` (for the ASCII inputs occurring here). -/
def pyStrip (s : String) : String :=
  String.mk (((s.data.dropWhile pySpaceChar).reverse.dropWhile pySpaceChar).reverse)

/-- Python `str.upper()` on ASCII. -/
def pyUpper (s : String) : String :=
  String.mk (s.data.map Char.toUpper)

/-- Python `str.lower()` on ASCII. -/
def pyLower (s : String) : String :=
  String.mk (s.data.map Char.toLower)

/-- Python `int(text)` on the (unsigned, all-digit) number tokens that the
SQL tokenizer produces. -/
def pyIntOfDigits (t : String) : Int :=
  ((t.data.foldl (fun n c => n * 10 + (c.toNat - 48)) 0 : Nat) : Int)

/-- Python `pattern in s` (substring containment). -/
def charsPrefix : List Char → List Char → Bool
  | [], _ => true
  | _ :: _, [] => false
  | p :: ps, c :: cs => p = c && charsPrefix ps cs

/-- Python `pattern in s` (contiguous substring containment), over chars. -/
def charsInfix (pat : List Char) : List Char → Bool
  | [] => pat.isEmpty
  | c :: cs => charsPrefix pat (c :: cs) || charsInfix pat cs

/-- Python `pattern in s` (substring containment). -/
def containsSubstr (s pat : String) : Bool :=
  charsInfix pat.data s.data

/-! ## Python-level values (`query_planner.Predicate.value` can hold any of these) -/

/-- A scalar Python value as produced by `QueryPlanner._extract_literal`:
int, float (kept as the literal's text, see module comment), str, bool,
None, or the `ParameterPlaceholder` sentinel. -/
inductive PyScalar where
  | intV (n : Int)
  | floatTxt (t : String)
  | strV (s : String)
  | boolV (b : Bool)
  | noneV
  | placeholder
  deriving Repr, DecidableEq

/-- A Python value held in `Predicate.value`: a scalar, or a list of scalars
for IN (the list members are `_extract_literal` outputs, hence scalars). -/
inductive PyVal where
  | scalar (v : PyScalar)
  | listV (vs : List PyScalar)
  deriving Repr, DecidableEq

/-- Shorthand injections mirroring the Python literals. -/
def PyVal.intV (n : Int) : PyVal := .scalar (.intV n)

def PyVal.strV (s : String) : PyVal := .scalar (.strV s)

def PyVal.boolV (b : Bool) : PyVal := .scalar (.boolV b)

def PyVal.noneV : PyVal := .scalar .noneV

def PyVal.floatTxt (t : String) : PyVal := .scalar (.floatTxt t)

/-- `waveql/query_planner.py::Predicate` — (column, operator, value). -/
structure Predicate where
  column : String
  operator : String
  value : PyVal
  deriving Repr, DecidableEq

/-- `waveql/query_planner.py::Aggregate` — (func, column, alias). -/
structure Aggregate where
  func : String
  column : String
  alias_ : Option String := none
  deriving Repr, DecidableEq

/-- `waveql/query_planner.py::QueryInfo` — the parsed-statement record.
Fields mirror the dataclass, with the same defaults. -/
structure QueryInfo where
  operation : String
  table : Option String := none
  columns : List String := ["*"]
  predicates : List Predicate := []
  values : List (String × PyVal) := []
  limit : Option Int := none
  offset : Option Int := none
  order_by : List (String × String) := []
  joins : List (String × String) := []
  group_by : List String := []
  aggregates : List Aggregate := []
  raw_sql : String := ""
  is_explain : Bool := false
  deriving Repr, DecidableEq

/-- `QueryInfo(operation="RAW", raw_sql=sql)` as built by `QueryPlanner.parse`
on a parse failure or an unrecognised statement. -/
def QueryInfo.mkRaw (sql : String) : QueryInfo :=
  { operation := "RAW", raw_sql := sql }

/-! ## Condition trees and `QueryPlanner._parse_condition`

`_parse_condition` walks the WHERE-clause expression tree handed over by the
SQL parser.  The tree shapes the function inspects are embedded as `Cond`;
scalar sub-expressions that reach `_extract_literal` are embedded as `SGAtom`
(a literal number carries its source text, any unrecognised expression carries
its rendered SQL text). -/

/-- An expression reaching `QueryPlanner._extract_literal`: a numeric literal
(with its text), a string literal, a boolean, NULL, a `?` placeholder, or any
other expression (carried as its rendered SQL text). -/
inductive SGAtom where
  | numLit (text : String)
  | strLit (s : String)
  | boolLit (b : Bool)
  | nullLit
  | placeholder
  | otherExpr (sql : String)
  deriving Repr, DecidableEq

/-- `QueryPlanner._extract_literal`: numbers become int (or float when the
text contains a dot — the float is kept as its text), strings/booleans/NULL
map directly, `?` becomes the placeholder sentinel, anything else is returned
as its rendered SQL text (a Python `str`). -/
def extractLiteral : SGAtom → PyScalar
  | .numLit t => if t.data.contains '.' then .floatTxt t else .intV (pyIntOfDigits t)
  | .strLit s => .strV s
  | .boolLit b => .boolV b
  | .nullLit => .noneV
  | .placeholder => .placeholder
  | .otherExpr s => .strV s

/-- The binary comparison node kinds handled by `_parse_condition`
(`exp.EQ/NEQ/LT/LTE/GT/GTE/Like`). -/
inductive CmpOp where
  | eq | neq | lt | lte | gt | gte | like
  deriving Repr, DecidableEq

/-- The `op_map` of `_parse_condition`. -/
def cmpOpSql : CmpOp → String
  | .eq => "="
  | .neq => "!="
  | .lt => "<"
  | .lte => "<="
  | .gt => ">"
  | .gte => ">="
  | .like => "LIKE"

/-- A raised CPython exception reaching the planner's callers. -/
inductive PyExn where
  | attributeError (msg : String)
  deriving Repr, DecidableEq

/-- Equality on `Except` results is decidable componentwise (needed to
evaluate the planner theorems on concrete inputs). -/
instance {e a : Type} [DecidableEq e] [DecidableEq a] : DecidableEq (Except e a) :=
  fun x y =>
    match x, y with
    | .ok u, .ok v =>
      if h : u = v then isTrue (congrArg Except.ok h)
      else isFalse (fun hh => h (Except.ok.inj hh))
    | .ok _, .error _ => isFalse (fun hh => Except.noConfusion hh)
    | .error _, .ok _ => isFalse (fun hh => Except.noConfusion hh)
    | .error u, .error v =>
      if h : u = v then isTrue (congrArg Except.error h)
      else isFalse (fun hh => h (Except.error.inj hh))

/-- The `AttributeError` CPython raises when `_extract_literal` is handed
`None`: its final `return expression.sql()` dereferences the missing
attribute. -/
def noneSqlAttrError : PyExn :=
  .attributeError "\x27NoneType\x27 object has no attribute \x27sql\x27"

/-- The `field` argument of an `exp.In` node as read by `_parse_condition`
(`expression.args.get("field")`).  sqlglot stores a parenthesized IN-list
`col IN (v1, v2)` under the node's `expressions` argument — which the code
never reads — leaving `field` absent (`absentF`); `field` is populated only
for the unparenthesized `col IN y` form, and then holds a plain expression,
never an `exp.Tuple`.  The code's `isinstance(field, exp.Tuple)` branch
(`tupleF`) is therefore unreachable from sqlglot output but kept here
because the source has it. -/
inductive InField where
  | absentF
  | tupleF (vs : List SGAtom)
  | scalarF (v : SGAtom)
  deriving Repr, DecidableEq

/-- A WHERE-clause expression tree as inspected by `_parse_condition`:
AND / OR nodes, comparison nodes (with the column's rendered SQL on the
left), IN nodes, `IS` nodes (whose right side is or is not NULL), NOT nodes,
and any other expression (carried as its rendered SQL). -/
inductive Cond where
  | andC (l r : Cond)
  | orC (l r : Cond)
  | cmpC (op : CmpOp) (colSql : String) (rhs : SGAtom)
  | inC (colSql : String) (field : InField)
  | isC (colSql : String) (rhsIsNull : Bool)
  | notC (inner : Cond)
  | otherC (sql : String)
  deriving Repr, DecidableEq

/-- `_extract_literal(expression.args.get("field"))`: with the argument
absent, `_extract_literal` receives `None`, none of its isinstance branches
match, and the final `return expression.sql()` raises `AttributeError`. -/
def extractLiteralArg : Option SGAtom → Except PyExn PyScalar
  | none => .error noneSqlAttrError
  | some a => .ok (extractLiteral a)

/-- `QueryPlanner._parse_condition`: recursively collects pushdown
predicates, or propagates a raised exception.  AND recurses on both sides
(left first; a raise on the left aborts before the right); each
comparison/LIKE emits one `Predicate`; an IN node reads the `field`
argument — absent for a standard parenthesized IN-list, so that case raises
`AttributeError` out of the traversal; `IS NULL` and `NOT (IS NULL)` emit
their null-test predicates; everything else — in particular any OR node —
contributes nothing. -/
def parseCondition : Cond → Except PyExn (List Predicate)
  | .andC l r =>
    match parseCondition l with
    | .error e => .error e
    | .ok la =>
      match parseCondition r with
      | .error e => .error e
      | .ok lb => .ok (la ++ lb)
  | .cmpC op col rhs => .ok [⟨col, cmpOpSql op, .scalar (extractLiteral rhs)⟩]
  | .inC col (.tupleF vs) => .ok [⟨col, "IN", .listV (vs.map extractLiteral)⟩]
  | .inC col .absentF =>
    match extractLiteralArg none with
    | .error e => .error e
    | .ok v => .ok [⟨col, "IN", .scalar v⟩]
  | .inC col (.scalarF s) =>
    match extractLiteralArg (some s) with
    | .error e => .error e
    | .ok v => .ok [⟨col, "IN", .scalar v⟩]
  | .isC col true => .ok [⟨col, "IS NULL", .noneV⟩]
  | .isC _ false => .ok []
  | .notC (.isC col true) => .ok [⟨col, "IS NOT NULL", .noneV⟩]
  | .notC _ => .ok []
  | .orC _ _ => .ok []
  | .otherC _ => .ok []

/-! ## `QueryPlanner.parse`

`parse` strips the input, hands it to the SQL parser (`sqlglot.parse_one` —
an external library, modelled here as an oracle `String → Option SGStmt`
where `none` models a raised parse exception), then dispatches on the root
node: EXPLAIN wrappers are parsed recursively on the inner statement's text;
SELECT / INSERT / UPDATE / DELETE build their `QueryInfo`; anything else —
including a `parse_one` failure — yields the RAW record.  The try/except of
`parse` wraps only the `sqlglot.parse_one` call (`query_planner.py:81-86`):
an exception raised later, inside predicate extraction, escapes `parse`,
hence the `Except` result.

The embedding of the statement-level extractors keeps the fields the claims
below are about (`operation`, `raw_sql`, `predicates`); the remaining
extraction (tables, columns, joins, limits) leaves the record's defaults. -/

/-- The root statement shapes `QueryPlanner.parse` dispatches on.  An
`explainStmt` is an `exp.Explain` node carrying the inner statement's
rendered SQL (absent when the node has no inner expression); a `commandStmt`
is an `exp.Command` with its command word and the inner text. -/
inductive SGStmt where
  | selectStmt (whereCond : Option Cond)
  | insertStmt
  | updateStmt (whereCond : Option Cond)
  | deleteStmt (whereCond : Option Cond)
  | explainStmt (innerSql : Option String)
  | commandStmt (word : String) (innerSql : Option String)
  | otherStmt
  deriving Repr, DecidableEq

/-- `QueryPlanner._parse_select`, restricted to the fields this development
reasons about: sets `operation`, `raw_sql` (verbatim the stripped statement
it was handed) and `predicates` from the WHERE clause; an exception from
`_parse_condition` propagates. -/
def parseSelectInfo (w : Option Cond) (sql : String) : Except PyExn QueryInfo :=
  match w with
  | none => .ok { operation := "SELECT", raw_sql := sql }
  | some c =>
    match parseCondition c with
    | .error e => .error e
    | .ok ps => .ok { operation := "SELECT", raw_sql := sql, predicates := ps }

/-- `QueryPlanner._parse_update`, same restriction as `parseSelectInfo`. -/
def parseUpdateInfo (w : Option Cond) (sql : String) : Except PyExn QueryInfo :=
  match w with
  | none => .ok { operation := "UPDATE", raw_sql := sql }
  | some c =>
    match parseCondition c with
    | .error e => .error e
    | .ok ps => .ok { operation := "UPDATE", raw_sql := sql, predicates := ps }

/-- `QueryPlanner._parse_delete`, same restriction as `parseSelectInfo`. -/
def parseDeleteInfo (w : Option Cond) (sql : String) : Except PyExn QueryInfo :=
  match w with
  | none => .ok { operation := "DELETE", raw_sql := sql }
  | some c =>
    match parseCondition c with
    | .error e => .error e
    | .ok ps => .ok { operation := "DELETE", raw_sql := sql, predicates := ps }

/-- `QueryPlanner.parse` with explicit fuel for the EXPLAIN recursion (the
Python recursion always terminates because each step strips one EXPLAIN
wrapper from a finite string; fuel exhaustion, which is never reached from
`plannerParse`, returns the RAW record).  A raise inside the statement
extractors propagates as `.error`. -/
def plannerParseFuel (oracle : String → Option SGStmt) :
    Nat → String → Except PyExn QueryInfo
  | 0, sqlRaw => .ok (QueryInfo.mkRaw (pyStrip sqlRaw))
  | fuel + 1, sqlRaw =>
    let sql := pyStrip sqlRaw
    match oracle sql with
    | none => .ok (QueryInfo.mkRaw sql)
    | some stmt =>
      match stmt with
      | .explainStmt innerSql =>
        match innerSql with
        | some inner =>
          match plannerParseFuel oracle fuel inner with
          | .error e => .error e
          | .ok info => .ok { info with is_explain := true }
        | none => .ok (QueryInfo.mkRaw sql)
      | .commandStmt word innerSql =>
        if pyUpper word = "EXPLAIN" then
          match innerSql with
          | some inner =>
            match plannerParseFuel oracle fuel inner with
            | .error e => .error e
            | .ok info => .ok { info with is_explain := true }
          | none => .ok (QueryInfo.mkRaw sql)
        else .ok (QueryInfo.mkRaw sql)
      | .selectStmt w => parseSelectInfo w sql
      | .insertStmt => .ok { operation := "INSERT", raw_sql := sql }
      | .updateStmt w => parseUpdateInfo w sql
      | .deleteStmt w => parseDeleteInfo w sql
      | .otherStmt => .ok (QueryInfo.mkRaw sql)

/-- `QueryPlanner.parse`: the fuel bound `|sql| + 1` dominates the number of
EXPLAIN wrappers any accepted statement can carry. -/
def plannerParse (oracle : String → Option SGStmt) (sql : String) :
    Except PyExn QueryInfo :=
  plannerParseFuel oracle (sql.length + 1) sql

/-- Does the parser's answer make `parse` take the recursive EXPLAIN branch? -/
def oracleExplains : Option SGStmt → Bool
  | some (.explainStmt (some _)) => true
  | some (.commandStmt word (some _)) => pyUpper word = "EXPLAIN"
  | _ => false

/-! ## Claim C2 — predicate completeness for conjunctions (code bug)

The claim follows the spec (one Predicate per comparison/LIKE/IN/IS-NULL
leaf), and the code plainly intends it: `Predicate`'s docstring lists `IN`,
`_parse_condition` maps `exp.In` in its op_map, and both adapters translate
IN predicates.  But the code reads the wrong argument of `exp.In`
(`query_planner.py:230-233`): a standard IN-list lives under `expressions`,
`field` is absent, and `_extract_literal(None)` raises `AttributeError`
that escapes `parse`.  So a conjunction with an IN leaf raises instead of
emitting its predicates. -/

/-- The condition tree sqlglot delivers for
`status = \x27active\x27 AND x IN (1, 2)`: the IN-list values sit in the In
node's `expressions` argument, so the `field` argument the code reads is
absent. -/
def inListConjCond : Cond :=
  Cond.andC (Cond.cmpC .eq "status" (.strLit "active")) (Cond.inC "x" .absentF)

/-- A parser oracle accepting the statement with `inListConjCond` as its
WHERE clause. -/
def inListOracle : String → Option SGStmt :=
  fun _ => some (.selectStmt (some inListConjCond))

/-- C2 (code bug): on the AND-conjunction
`status = \x27active\x27 AND x IN (1, 2)`, the planner does not emit one
Predicate per leaf — `_parse_condition` raises `AttributeError` on the IN
leaf (absent `field` argument), and the exception escapes `parse`. -/
theorem in_conjunction_extraction_raises :
    parseCondition inListConjCond = .error noneSqlAttrError ∧
    plannerParse inListOracle
        "SELECT * FROM t WHERE status = \x27active\x27 AND x IN (1, 2)" =
      .error noneSqlAttrError :=
  ⟨rfl, by decide⟩

/-! ## Claim C3 — disjunctions block extraction -/

/-- The condition tree of `x IN (1, 2) AND (a = 1 OR b = 2)`: the IN
AND-sibling of the OR subtree carries the absent `field` argument. -/
def orSiblingCond : Cond :=
  Cond.andC (Cond.inC "x" .absentF)
    (Cond.orC (Cond.cmpC .eq "a" (.numLit "1")) (Cond.cmpC .eq "b" (.numLit "2")))

/-- Counterexample to C3 as stated: the OR subtree alone contributes no
predicates, but for `x IN (1, 2) AND (a = 1 OR b = 2)` extraction raises
`AttributeError` on the IN sibling instead of extracting it, so
"AND-connected siblings outside the OR subtree are still extracted" fails. -/
theorem or_sibling_in_list_counterexample :
    parseCondition (Cond.orC (Cond.cmpC .eq "a" (.numLit "1"))
        (Cond.cmpC .eq "b" (.numLit "2"))) = .ok [] ∧
    parseCondition orSiblingCond = .error noneSqlAttrError :=
  ⟨rfl, rfl⟩

/-- C3 (amended): for every WHERE clause containing a disjunction, no
Predicate is emitted for any comparison underneath the OR node — the OR
subtree contributes the empty list, its conditions surviving only in
`raw_sql` — and AND-connected siblings outside the OR subtree are still
extracted whenever their own extraction returns at all (a sibling containing
a standard parenthesized IN-list instead raises, the C2 defect, and the
raise propagates). -/
theorem or_blocks_predicate_extraction_amended :
    (∀ l r : Cond, parseCondition (.orC l r) = .ok []) ∧
    (∀ (a b : Cond) (la lb : List Predicate), parseCondition a = .ok la →
      parseCondition b = .ok lb → parseCondition (.andC a b) = .ok (la ++ lb)) ∧
    (∀ s l r : Cond, parseCondition (.andC s (.orC l r)) = parseCondition s ∧
      parseCondition (.andC (.orC l r) s) = parseCondition s) := by
  refine ⟨fun l r => rfl, ?_, ?_⟩
  · intro a b la lb ha hb
    simp only [parseCondition, ha, hb]
  · intro s l r
    refine ⟨?_, ?_⟩
    · cases hs : parseCondition s with
      | error e => simp [parseCondition, hs]
      | ok la => simp [parseCondition, hs]
    · cases hs : parseCondition s with
      | error e => simp [parseCondition, hs]
      | ok la => simp [parseCondition, hs]

/-- Witness for the amended C3: the sibling `a = 1` next to
`(b = 2 OR c = 3)` is extracted alone, and a two-comparison conjunction is
extracted in order. -/
theorem or_blocks_predicate_extraction_amended_witness :
    parseCondition (Cond.andC (Cond.cmpC .eq "a" (.numLit "1"))
        (Cond.orC (Cond.cmpC .eq "b" (.numLit "2"))
          (Cond.cmpC .eq "c" (.numLit "3")))) =
      .ok [⟨"a", "=", .intV 1⟩] ∧
    parseCondition (Cond.andC (Cond.cmpC .eq "a" (.numLit "1"))
        (Cond.cmpC .like "b" (.strLit "x"))) =
      .ok [⟨"a", "=", .intV 1⟩, ⟨"b", "LIKE", .strV "x"⟩] := by
  constructor
  · rw [(or_blocks_predicate_extraction_amended.2.2 (Cond.cmpC .eq "a" (.numLit "1"))
      (Cond.cmpC .eq "b" (.numLit "2")) (Cond.cmpC .eq "c" (.numLit "3"))).1]
    decide
  · rw [or_blocks_predicate_extraction_amended.2.1 (Cond.cmpC .eq "a" (.numLit "1"))
      (Cond.cmpC .like "b" (.strLit "x")) [⟨"a", "=", .intV 1⟩]
      [⟨"b", "LIKE", .strV "x"⟩] (by decide) (by decide)]
    rfl

/-! ## Claims C4 and C5 — `parse` robustness and `raw_sql` -/

theorem parseSelectInfo_ok_raw_sql (w : Option Cond) (sql : String)
    (qi : QueryInfo) (h : parseSelectInfo w sql = .ok qi) : qi.raw_sql = sql := by
  cases w with
  | none =>
    simp only [parseSelectInfo] at h
    cases h
    rfl
  | some c =>
    simp only [parseSelectInfo] at h
    cases hc : parseCondition c with
    | error e =>
      rw [hc] at h
      exact Except.noConfusion h
    | ok ps =>
      rw [hc] at h
      have h2 := Except.ok.inj h
      rw [← h2]

theorem parseUpdateInfo_ok_raw_sql (w : Option Cond) (sql : String)
    (qi : QueryInfo) (h : parseUpdateInfo w sql = .ok qi) : qi.raw_sql = sql := by
  cases w with
  | none =>
    simp only [parseUpdateInfo] at h
    cases h
    rfl
  | some c =>
    simp only [parseUpdateInfo] at h
    cases hc : parseCondition c with
    | error e =>
      rw [hc] at h
      exact Except.noConfusion h
    | ok ps =>
      rw [hc] at h
      have h2 := Except.ok.inj h
      rw [← h2]

theorem parseDeleteInfo_ok_raw_sql (w : Option Cond) (sql : String)
    (qi : QueryInfo) (h : parseDeleteInfo w sql = .ok qi) : qi.raw_sql = sql := by
  cases w with
  | none =>
    simp only [parseDeleteInfo] at h
    cases h
    rfl
  | some c =>
    simp only [parseDeleteInfo] at h
    cases hc : parseCondition c with
    | error e =>
      rw [hc] at h
      exact Except.noConfusion h
    | ok ps =>
      rw [hc] at h
      have h2 := Except.ok.inj h
      rw [← h2]

theorem plannerParseFuel_raw_sql (oracle : String → Option SGStmt) (fuel : Nat)
    (sql : String) (qi : QueryInfo)
    (h : oracleExplains (oracle (pyStrip sql)) = false)
    (hqi : plannerParseFuel oracle (fuel + 1) sql = .ok qi) :
    qi.raw_sql = pyStrip sql := by
  cases ho : oracle (pyStrip sql) with
  | none =>
    have hstep : plannerParseFuel oracle (fuel + 1) sql =
        .ok (QueryInfo.mkRaw (pyStrip sql)) := by
      simp only [plannerParseFuel, ho]
    rw [hstep] at hqi
    have h2 : Except.ok (QueryInfo.mkRaw (pyStrip sql)) = Except.ok qi := hqi
    cases h2
    rfl
  | some stmt =>
    cases stmt with
    | selectStmt w =>
      have hstep : plannerParseFuel oracle (fuel + 1) sql =
          parseSelectInfo w (pyStrip sql) := by
        simp only [plannerParseFuel, ho]
      rw [hstep] at hqi
      exact parseSelectInfo_ok_raw_sql w _ qi hqi
    | insertStmt =>
      have hstep : plannerParseFuel oracle (fuel + 1) sql =
          .ok { operation := "INSERT", raw_sql := pyStrip sql } := by
        simp only [plannerParseFuel, ho]
      rw [hstep] at hqi
      have h2 := Except.ok.inj hqi
      rw [← h2]
    | updateStmt w =>
      have hstep : plannerParseFuel oracle (fuel + 1) sql =
          parseUpdateInfo w (pyStrip sql) := by
        simp only [plannerParseFuel, ho]
      rw [hstep] at hqi
      exact parseUpdateInfo_ok_raw_sql w _ qi hqi
    | deleteStmt w =>
      have hstep : plannerParseFuel oracle (fuel + 1) sql =
          parseDeleteInfo w (pyStrip sql) := by
        simp only [plannerParseFuel, ho]
      rw [hstep] at hqi
      exact parseDeleteInfo_ok_raw_sql w _ qi hqi
    | otherStmt =>
      have hstep : plannerParseFuel oracle (fuel + 1) sql =
          .ok (QueryInfo.mkRaw (pyStrip sql)) := by
        simp only [plannerParseFuel, ho]
      rw [hstep] at hqi
      have h2 := Except.ok.inj hqi
      rw [← h2]
      rfl
    | explainStmt innerSql =>
      cases innerSql with
      | none =>
        have hstep : plannerParseFuel oracle (fuel + 1) sql =
            .ok (QueryInfo.mkRaw (pyStrip sql)) := by
          simp only [plannerParseFuel, ho]
        rw [hstep] at hqi
        have h2 := Except.ok.inj hqi
        rw [← h2]
        rfl
      | some inner =>
        rw [ho] at h
        exact Bool.noConfusion h
    | commandStmt word innerSql =>
      cases innerSql with
      | none =>
        by_cases hW : pyUpper word = "EXPLAIN"
        · have hstep : plannerParseFuel oracle (fuel + 1) sql =
              .ok (QueryInfo.mkRaw (pyStrip sql)) := by
            simp only [plannerParseFuel, ho, if_pos hW]
          rw [hstep] at hqi
          have h2 := Except.ok.inj hqi
          rw [← h2]
          rfl
        · have hstep : plannerParseFuel oracle (fuel + 1) sql =
              .ok (QueryInfo.mkRaw (pyStrip sql)) := by
            simp only [plannerParseFuel, ho, if_neg hW]
          rw [hstep] at hqi
          have h2 := Except.ok.inj hqi
          rw [← h2]
          rfl
      | some inner =>
        rw [ho] at h
        simp only [oracleExplains, decide_eq_false_iff_not] at h
        have hstep : plannerParseFuel oracle (fuel + 1) sql =
            .ok (QueryInfo.mkRaw (pyStrip sql)) := by
          simp only [plannerParseFuel, ho, if_neg h]
        rw [hstep] at hqi
        have h2 := Except.ok.inj hqi
        rw [← h2]
        rfl

/-- An oracle exhibiting the EXPLAIN behaviour of `parse`: it recognises the
EXPLAIN wrapper and its inner SELECT. -/
def c4Oracle : String → Option SGStmt
  | "EXPLAIN SELECT * FROM t" => some (.explainStmt (some "SELECT * FROM t"))
  | "SELECT * FROM t" => some (.selectStmt none)
  | _ => none

/-- Counterexample to C4 as stated: for the EXPLAIN-wrapped statement
`EXPLAIN SELECT * FROM t`, `parse` recursively parses the inner statement,
so the returned `raw_sql` is the inner text `SELECT * FROM t`, not the
stripped input. -/
theorem parse_explain_raw_sql_counterexample :
    c4Oracle (pyStrip "EXPLAIN SELECT * FROM t") =
      some (.explainStmt (some "SELECT * FROM t")) ∧
    plannerParse c4Oracle "EXPLAIN SELECT * FROM t" =
      .ok { operation := "SELECT", raw_sql := "SELECT * FROM t",
            is_explain := true } ∧
    "SELECT * FROM t" ≠ pyStrip "EXPLAIN SELECT * FROM t" :=
  ⟨by decide, by decide, by decide⟩

/-- C4 (amended): for every SQL string `S` the planner accepts whose root is
not an EXPLAIN wrapper, whenever `parse` returns a QueryInfo at all
(predicate extraction can raise instead — see C5), that QueryInfo satisfies
`raw_sql = S.strip()`; for an EXPLAIN wrapper whose inner statement is
itself not EXPLAIN-wrapped, a returned QueryInfo carries the stripped inner
text as `raw_sql` and has `is_explain` set. -/
theorem parse_raw_sql_amended (oracle : String → Option SGStmt) (sql inner : String) :
    (oracleExplains (oracle (pyStrip sql)) = false →
      ∀ qi : QueryInfo, plannerParse oracle sql = .ok qi →
        qi.raw_sql = pyStrip sql) ∧
    (oracle (pyStrip sql) = some (.explainStmt (some inner)) → 1 ≤ sql.length →
      oracleExplains (oracle (pyStrip inner)) = false →
      ∀ qi : QueryInfo, plannerParse oracle sql = .ok qi →
        qi.raw_sql = pyStrip inner ∧ qi.is_explain = true) := by
  constructor
  · intro h qi hqi
    exact plannerParseFuel_raw_sql oracle sql.length sql qi h hqi
  · intro hsel hlen hinner qi hqi
    obtain ⟨m, hm⟩ : ∃ m, sql.length = m + 1 := ⟨sql.length - 1, by omega⟩
    have step : plannerParse oracle sql =
        (match plannerParseFuel oracle sql.length inner with
         | .error e => .error e
         | .ok info => .ok { info with is_explain := true }) := by
      simp only [plannerParse, plannerParseFuel, hsel]
    rw [step] at hqi
    cases hin : plannerParseFuel oracle sql.length inner with
    | error e =>
      rw [hin] at hqi
      exact Except.noConfusion hqi
    | ok info =>
      rw [hin] at hqi
      have hqi2 := Except.ok.inj hqi
      rw [hm] at hin
      rw [← hqi2]
      exact ⟨plannerParseFuel_raw_sql oracle m inner info hinner hin, rfl⟩

/-- Witness for the amended C4: both branches at concrete inputs, driven by
`c4Oracle`. -/
theorem parse_raw_sql_amended_witness :
    plannerParse c4Oracle "SELECT * FROM t" =
      .ok { operation := "SELECT", raw_sql := "SELECT * FROM t" } ∧
    ({ operation := "SELECT", raw_sql := "SELECT * FROM t" } :
        QueryInfo).raw_sql = pyStrip "SELECT * FROM t" ∧
    ({ operation := "SELECT", raw_sql := "SELECT * FROM t",
        is_explain := true } : QueryInfo).raw_sql = pyStrip "SELECT * FROM t" ∧
    ({ operation := "SELECT", raw_sql := "SELECT * FROM t",
        is_explain := true } : QueryInfo).is_explain = true := by
  refine ⟨by decide, ?_, ?_, ?_⟩
  · exact (parse_raw_sql_amended c4Oracle "SELECT * FROM t" "").1 (by decide)
      { operation := "SELECT", raw_sql := "SELECT * FROM t" } (by decide)
  · exact ((parse_raw_sql_amended c4Oracle "EXPLAIN SELECT * FROM t"
      "SELECT * FROM t").2 (by decide) (by decide) (by decide)
      { operation := "SELECT", raw_sql := "SELECT * FROM t",
        is_explain := true } (by decide)).1
  · exact ((parse_raw_sql_amended c4Oracle "EXPLAIN SELECT * FROM t"
      "SELECT * FROM t").2 (by decide) (by decide) (by decide)
      { operation := "SELECT", raw_sql := "SELECT * FROM t",
        is_explain := true } (by decide)).2

/-- An oracle accepting the C5 failing statement, whose WHERE clause is a
standard parenthesized IN-list (absent `field` argument). -/
def c5Oracle : String → Option SGStmt
  | "SELECT * FROM t WHERE x IN (1, 2)" =>
    some (.selectStmt (some (Cond.inC "x" .absentF)))
  | _ => none

/-- C5 (code bug): `parse` does raise.  On
`SELECT * FROM t WHERE x IN (1, 2)` the parser accepts the statement, but
predicate extraction calls `_extract_literal(None)` (absent `field` of
`exp.In`), whose `AttributeError` escapes `parse` — the try/except at
`query_planner.py:81-86` wraps only `sqlglot.parse_one` — so no RAW
QueryInfo is returned. -/
theorem parse_raises_on_in_list :
    c5Oracle (pyStrip "SELECT * FROM t WHERE x IN (1, 2)") =
      some (.selectStmt (some (Cond.inC "x" .absentF))) ∧
    plannerParse c5Oracle "SELECT * FROM t WHERE x IN (1, 2)" =
      .error noneSqlAttrError :=
  ⟨by decide, by decide⟩

/-! ## The FROM-rewrite of the fallback path (`cursor.py`)

`WaveQLCursor._execute_via_adapter` rewrites the statement with
`re.compile(f"FROM\\s+{re.escape(table)}\\b", re.IGNORECASE).sub(f"FROM {temp}", raw_sql, count=1)`.
The regex is embedded over character lists: the table name is matched
literally (it went through `re.escape`), everything case-insensitively, the
`\s+` greedily with backtracking, and `\b` as the usual word/non-word
boundary. -/

/-- `\w` of Python `re` on ASCII: letters, digits and underscore. -/
def wordChar (c : Char) : Bool :=
  c.isAlphanum || c = '_'

/-- Case-insensitive character comparison (`re.IGNORECASE`). -/
def ciEq (a b : Char) : Bool :=
  a.toLower = b.toLower

/-- Match a literal pattern case-insensitively at the head; returns the
remainder on success. -/
def matchCI : List Char → List Char → Option (List Char)
  | [], cs => some cs
  | _ :: _, [] => none
  | p :: ps, c :: cs => if ciEq p c then matchCI ps cs else none

/-- The `\b` after the table name: a boundary stands between the table's
last character and the remainder's first (end of input counts as
non-word). -/
def boundaryOk (table rest : List Char) : Bool :=
  match table.getLast? with
  | none => true
  | some lastC =>
    wordChar lastC != (match rest.head? with | some c => wordChar c | none => false)

/-- `\s+` then the table name then `\b`, with the regex engine's greedy
backtracking over the whitespace run; returns the remainder after the table
name on success. -/
def matchWsTable (table : List Char) : List Char → Option (List Char)
  | [] => none
  | c :: cs =>
    if pySpaceChar c then
      match matchWsTable table cs with
      | some r => some r
      | none =>
        match matchCI table cs with
        | some rest => if boundaryOk table rest then some rest else none
        | none => none
    else none

/-- The full pattern `FROM\s+table\b` anchored at the head of `cs`. -/
def matchFromTable (table cs : List Char) : Option (List Char) :=
  match matchCI ['F', 'R', 'O', 'M'] cs with
  | none => none
  | some afterFrom => matchWsTable table afterFrom

/-- `pattern.sub(f"FROM {temp}", raw_sql, count=1)`: replace the leftmost
match, leave everything else untouched. -/
def subFromFirst (table temp : List Char) : List Char → List Char
  | [] => []
  | c :: cs =>
    match matchFromTable table (c :: cs) with
    | some rest => 'F' :: 'R' :: 'O' :: 'M' :: ' ' :: (temp ++ rest)
    | none => c :: subFromFirst table temp cs

/-- The fallback path's SQL rewrite: the first word-boundary,
case-insensitive occurrence of `FROM <table>` becomes `FROM <temp>`. -/
def rewriteSql (rawSql table temp : String) : String :=
  String.mk (subFromFirst table.data temp.data rawSql.data)

/-! ## The pushdown/fallback execution engine (`cursor.py::_execute_via_adapter`, SELECT branch)

The adapter's `fetch` is a function from its keyword arguments to an outcome
(a batch, a raised `NotImplementedError` — the pushdown-unsupported signal —
or any other raised error); the local DuckDB engine is a function from SQL to
a batch or a raised error.  The engine-side effects (register / execute /
unregister) are collected as an event trace, in order. -/

/-- The keyword arguments of `BaseAdapter.fetch`. -/
structure FetchArgs where
  table : Option String
  columns : Option (List String)
  predicates : List Predicate
  limit : Option Int
  offset : Option Int
  order_by : List (String × String)
  group_by : List String
  aggregates : List Aggregate
  deriving Repr, DecidableEq

/-- The first `adapter.fetch` call of the SELECT branch — every pushdown
component of the plan is passed. -/
def fullFetchArgs (qi : QueryInfo) : FetchArgs :=
  { table := qi.table, columns := some qi.columns, predicates := qi.predicates,
    limit := qi.limit, offset := qi.offset, order_by := qi.order_by,
    group_by := qi.group_by, aggregates := qi.aggregates }

/-- The fallback `adapter.fetch` call — `columns=None` and the original
predicates only; limit/offset/order/group/aggregates are left at the
signature's defaults. -/
def fallbackFetchArgs (qi : QueryInfo) : FetchArgs :=
  { table := qi.table, columns := none, predicates := qi.predicates,
    limit := none, offset := none, order_by := [], group_by := [],
    aggregates := [] }

/-- Outcome of an `adapter.fetch` call: a batch, a raised
`NotImplementedError`, or any other raised exception. -/
inductive FetchOutcome (β : Type) where
  | ok (batch : β)
  | notImplemented
  | raised (msg : String)
  deriving Repr, DecidableEq

/-- Side effects on the local DuckDB engine, in order of occurrence. -/
inductive EngineEvent (β : Type) where
  | register (name : String) (batch : β)
  | execSql (sql : String)
  | unregister (name : String)
  deriving Repr, DecidableEq

/-- Errors surfacing from the engine/cursor layer. -/
inductive ExecError where
  | queryError (msg : String)
  | notImplemented
  | adapterRaised (msg : String)
  | engineRaised (msg : String)
  deriving Repr, DecidableEq

/-- `WaveQLCursor._execute_via_adapter`, SELECT branch.  `tempName` stands
for the generated `t_{uuid4().hex}` (fresh by construction in the source);
`batchLen` is `len` on batches.  Returns the result (or the propagated
exception) together with the engine-event trace.  Mirrors the source: on
`NotImplementedError` the fetch is re-issued with `columns=None` and the
original predicates; an empty fallback batch is returned directly with
rowcount 0; otherwise the batch is registered, the rewritten SQL executed,
and the name unregistered in a `finally` block (hence on both exits). -/
def executeSelectViaAdapter {β : Type} (adapterFetch : FetchArgs → FetchOutcome β)
    (duck : String → Except String β) (batchLen : β → Nat) (tempName : String)
    (qi : QueryInfo) : Except ExecError (β × Int) × List (EngineEvent β) :=
  match adapterFetch (fullFetchArgs qi) with
  | .ok data => (.ok (data, (batchLen data : Int)), [])
  | .raised m => (.error (.adapterRaised m), [])
  | .notImplemented =>
    match adapterFetch (fallbackFetchArgs qi) with
    | .raised m => (.error (.adapterRaised m), [])
    | .notImplemented => (.error .notImplemented, [])
    | .ok rawData =>
      if batchLen rawData = 0 then (.ok (rawData, 0), [])
      else
        let rewritten := rewriteSql qi.raw_sql (qi.table.getD "") tempName
        let events := [EngineEvent.register tempName rawData,
                       EngineEvent.execSql rewritten,
                       EngineEvent.unregister tempName]
        match duck rewritten with
        | .ok result => (.ok (result, (batchLen result : Int)), events)
        | .error m => (.error (.engineRaised m), events)

/-! ## Claim C1 — the fallback path -/

/-- The aggregation SELECT used as concrete input for C1. -/
def c1Query : QueryInfo :=
  { operation := "SELECT", table := some "t",
    raw_sql := "SELECT grp, SUM(v) FROM t GROUP BY grp" }

/-- An adapter that rejects the aggregation pushdown and returns the empty
batch on the fallback fetch. -/
def c1AdapterEmpty : FetchArgs → FetchOutcome (List Nat) :=
  fun a => match a.columns with
    | some _ => .notImplemented
    | none => .ok []

/-- Counterexample to C1 as stated: when the fallback fetch returns an empty
batch, the engine returns it directly — no temporary name is registered, no
SQL is rewritten or executed, and nothing is unregistered (the event trace is
empty), contrary to the claimed unconditional register/rewrite/unregister
sequence.  The pushdown-unsupported error still does not surface. -/
theorem fallback_empty_batch_counterexample :
    c1AdapterEmpty (fullFetchArgs c1Query) = .notImplemented ∧
    c1AdapterEmpty (fallbackFetchArgs c1Query) = .ok [] ∧
    executeSelectViaAdapter c1AdapterEmpty (fun _ => .ok [3]) List.length
      "t_4f6e" c1Query = (.ok ([], 0), []) :=
  ⟨rfl, rfl, rfl⟩

/-- C1 (amended): when the adapter's full fetch raises pushdown-unsupported,
the cursor re-invokes `fetch` with `columns=None` and the original
predicates and never surfaces the pushdown-unsupported error; if the
fallback batch is non-empty it registers it under the fresh temporary name,
executes the rewritten SQL (first word-boundary case-insensitive
`FROM <table>` replaced by `FROM <temp>`) and unregisters the name on both
the success and the error exit; if the fallback batch is empty it is
returned directly with rowcount 0 and no engine interaction. -/
theorem fallback_path_amended {β : Type} (adapterFetch : FetchArgs → FetchOutcome β)
    (duck : String → Except String β) (batchLen : β → Nat) (tempName : String)
    (qi : QueryInfo) (b : β)
    (hfull : adapterFetch (fullFetchArgs qi) = .notImplemented)
    (hfb : adapterFetch (fallbackFetchArgs qi) = .ok b) :
    ((executeSelectViaAdapter adapterFetch duck batchLen tempName qi).1 ≠
        .error .notImplemented) ∧
    (fallbackFetchArgs qi).columns = none ∧
    (fallbackFetchArgs qi).predicates = qi.predicates ∧
    (batchLen b = 0 →
      executeSelectViaAdapter adapterFetch duck batchLen tempName qi =
        (.ok (b, 0), [])) ∧
    (batchLen b ≠ 0 →
      (executeSelectViaAdapter adapterFetch duck batchLen tempName qi).2 =
        [EngineEvent.register tempName b,
         EngineEvent.execSql (rewriteSql qi.raw_sql (qi.table.getD "") tempName),
         EngineEvent.unregister tempName]) := by
  have base : executeSelectViaAdapter adapterFetch duck batchLen tempName qi =
      (if batchLen b = 0 then (.ok (b, 0), [])
       else
        let rewritten := rewriteSql qi.raw_sql (qi.table.getD "") tempName
        let events := [EngineEvent.register tempName b,
                       EngineEvent.execSql rewritten,
                       EngineEvent.unregister tempName]
        match duck rewritten with
        | .ok result => (.ok (result, (batchLen result : Int)), events)
        | .error m => (.error (.engineRaised m), events)) := by
    simp only [executeSelectViaAdapter, hfull, hfb]
  refine ⟨?_, rfl, rfl, ?_, ?_⟩
  · rw [base]
    by_cases hz : batchLen b = 0
    · simp [hz]
    · simp only [if_neg hz]
      cases hd : duck (rewriteSql qi.raw_sql (qi.table.getD "") tempName) <;>
        simp [hd]
  · intro hz; rw [base, if_pos hz]
  · intro hz
    rw [base, if_neg hz]
    cases hd : duck (rewriteSql qi.raw_sql (qi.table.getD "") tempName) <;>
      simp [hd]

/-- An adapter that rejects the aggregation pushdown and returns a one-row
batch on the fallback fetch. -/
def c1AdapterOne : FetchArgs → FetchOutcome (List Nat) :=
  fun a => match a.columns with
    | some _ => .notImplemented
    | none => .ok [7]

/-- Witness for the amended C1, on a non-empty fallback batch: the
pushdown-unsupported error does not surface, and the trace is exactly
register / execute-rewritten-SQL / unregister — with the concretely
rewritten statement. -/
theorem fallback_path_amended_witness :
    ((executeSelectViaAdapter c1AdapterOne (fun _ => .ok [7, 8]) List.length
        "t_4f6e" c1Query).1 ≠ .error .notImplemented) ∧
    (executeSelectViaAdapter c1AdapterOne (fun _ => .ok [7, 8]) List.length
        "t_4f6e" c1Query).2 =
      [EngineEvent.register "t_4f6e" [7],
       EngineEvent.execSql "SELECT grp, SUM(v) FROM t_4f6e GROUP BY grp",
       EngineEvent.unregister "t_4f6e"] := by
  have h := fallback_path_amended c1AdapterOne (fun _ => .ok [7, 8]) List.length
    "t_4f6e" c1Query [7] rfl rfl
  refine ⟨h.1, ?_⟩
  rw [h.2.2.2.2 (by decide)]
  decide

/-! ## The cursor state machine (`cursor.py`) — claim C10 -/

/-- The cursor's mutable state: `_closed`, `_result` (a batch, modelled as
its row list), `_result_index` and `_rowcount`. -/
structure CursorState (ρ : Type) where
  closed : Bool
  result : Option (List ρ)
  resultIndex : Nat
  rowcount : Int
  deriving Repr, DecidableEq

/-- `WaveQLCursor.close`: sets `_closed` and drops the result set. -/
def cursorClose {ρ : Type} (s : CursorState ρ) : CursorState ρ :=
  { s with closed := true, result := none }

/-- `WaveQLCursor.execute`: the closed-guard raises
`QueryError("Cursor is closed")`; the remainder of the method (planning,
routing, description update) is the `run` argument. -/
def cursorExecute {ρ : Type}
    (run : String → CursorState ρ → Except ExecError (CursorState ρ))
    (sql : String) (s : CursorState ρ) : Except ExecError (CursorState ρ) :=
  if s.closed then .error (.queryError "Cursor is closed") else run sql s

/-- `WaveQLCursor.fetchone`: `None` when there is no result set or the index
is past the end; otherwise the row at the index, advancing the index. -/
def cursorFetchone {ρ : Type} (s : CursorState ρ) : Option ρ × CursorState ρ :=
  match s.result with
  | none => (none, s)
  | some rows =>
    if rows.length ≤ s.resultIndex then (none, s)
    else (rows.get? s.resultIndex, { s with resultIndex := s.resultIndex + 1 })

/-- C10: after `close()`, any `execute` raises `QueryError` and `fetchone`
returns `None` (the result set was cleared by `close`), whatever the cursor
held before closing. -/
theorem closed_cursor_execute_raises_fetchone_none {ρ : Type}
    (run : String → CursorState ρ → Except ExecError (CursorState ρ))
    (sql : String) (s : CursorState ρ) :
    cursorExecute run sql (cursorClose s) =
      .error (.queryError "Cursor is closed") ∧
    (cursorFetchone (cursorClose s)).1 = none := by
  exact ⟨rfl, rfl⟩

/-! ## ServiceNow adapter (`adapters/servicenow.py`) — mutation guards

`update`/`delete` scan the predicates for the first `sys_id = …` equality,
raise `QueryError` when none (or a falsy one) is found, and only then build
the URL and issue the HTTP request.  The HTTP transport is a function
parameter; issued requests are returned as a trace. -/

/-- Python truthiness of a scalar.  (Float texts here are the unsigned
digit-and-dot number tokens, so zero means all characters are `0` or `.`.) -/
def pyScalarFalsy : PyScalar → Bool
  | .intV n => n = 0
  | .floatTxt t => t.data.all (fun c => c = '0' || c = '.')
  | .strV s => s.data.isEmpty
  | .boolV b => !b
  | .noneV => true
  | .placeholder => false

/-- Python truthiness of a predicate value. -/
def pyValFalsy : PyVal → Bool
  | .scalar v => pyScalarFalsy v
  | .listV vs => vs.isEmpty

/-- Python `repr` of a scalar (`str` uses quotes inside list display). -/
def pyReprScalar : PyScalar → String
  | .strV s => "\x27" ++ s ++ "\x27"
  | .intV n => toString n
  | .floatTxt t => t
  | .boolV b => if b then "True" else "False"
  | .noneV => "None"
  | .placeholder => "?"

/-- Python `str` of a predicate value as interpolated into f-strings.
(`ParameterPlaceholder` falls back to its `__repr__`, `?`; the float text is
kept verbatim — CPython would re-render the float, a branch no theorem
exercises.) -/
def pyStr : PyVal → String
  | .scalar (.strV s) => s
  | .scalar v => pyReprScalar v
  | .listV vs => "[" ++ String.intercalate ", " (vs.map pyReprScalar) ++ "]"

/-- `ServiceNowAdapter._extract_table_name`: keep the part after the last
dot, then strip surrounding double quotes. -/
def snExtractTableName (table : String) : String :=
  let t := if table.data.contains '.'
    then (table.data.reverse.takeWhile (fun c => c ≠ '.')).reverse
    else table.data
  String.mk (((t.dropWhile (fun c => c = '"')).reverse.dropWhile
    (fun c => c = '"')).reverse)

/-- The `for pred in predicates: if pred.column.lower() == "sys_id" and
pred.operator == "=": sys_id = pred.value; break` loop of
`update`/`delete`. -/
def snFindSysId : List Predicate → Option PyVal
  | [] => none
  | p :: ps =>
    if pyLower p.column = "sys_id" && p.operator = "=" then some p.value
    else snFindSysId ps

/-- An HTTP request issued by an adapter. -/
inductive HttpReq where
  | getR (url : String)
  | postR (url : String) (body : List (String × PyVal))
  | patchR (url : String) (body : List (String × PyVal))
  | deleteR (url : String)
  deriving Repr, DecidableEq

/-- `ServiceNowAdapter.update`: guard on `sys_id`, then PATCH
`{host}/api/now/table/{table}/{sys_id}`; transport failures are wrapped in
`QueryError("UPDATE failed: …")`. -/
def snUpdate (transport : HttpReq → Except String Unit) (host table : String)
    (values : List (String × PyVal)) (preds : List Predicate) :
    Except ExecError Int × List HttpReq :=
  let tableName := snExtractTableName table
  let sysId := snFindSysId preds
  if (match sysId with | none => true | some v => pyValFalsy v) then
    (.error (.queryError "UPDATE requires sys_id in WHERE clause"), [])
  else
    let url := host ++ "/api/now/table/" ++ tableName ++ "/" ++
      pyStr (sysId.getD .noneV)
    let req := HttpReq.patchR url values
    match transport req with
    | .ok _ => (.ok 1, [req])
    | .error m => (.error (.queryError ("UPDATE failed: " ++ m)), [req])

/-- `ServiceNowAdapter.delete`: guard on `sys_id`, then DELETE
`{host}/api/now/table/{table}/{sys_id}`. -/
def snDelete (transport : HttpReq → Except String Unit) (host table : String)
    (preds : List Predicate) : Except ExecError Int × List HttpReq :=
  let tableName := snExtractTableName table
  let sysId := snFindSysId preds
  if (match sysId with | none => true | some v => pyValFalsy v) then
    (.error (.queryError "DELETE requires sys_id in WHERE clause"), [])
  else
    let url := host ++ "/api/now/table/" ++ tableName ++ "/" ++
      pyStr (sysId.getD .noneV)
    let req := HttpReq.deleteR url
    match transport req with
    | .ok _ => (.ok 1, [req])
    | .error m => (.error (.queryError ("DELETE failed: " ++ m)), [req])

theorem snFindSysId_eq_none (preds : List Predicate)
    (h : ∀ p ∈ preds, ¬(pyLower p.column = "sys_id" ∧ p.operator = "=")) :
    snFindSysId preds = none := by
  induction preds with
  | nil => rfl
  | cons p ps ih =>
    have hp := h p (by simp)
    have hc : ¬((pyLower p.column = "sys_id" && p.operator = "=") = true) := by
      simp only [Bool.and_eq_true, decide_eq_true_eq]
      exact hp
    simp only [snFindSysId, if_neg hc]
    exact ih fun q hq => h q (by simp [hq])

/-- C6: an UPDATE or DELETE against the ServiceNow adapter whose predicate
list holds no `sys_id = …` equality raises `QueryError` mentioning the
required identifier, and no HTTP request is issued (the request trace is
empty). -/
theorem servicenow_mutation_without_key
    (transport : HttpReq → Except String Unit) (host table : String)
    (values : List (String × PyVal)) (preds : List Predicate)
    (h : ∀ p ∈ preds, ¬(pyLower p.column = "sys_id" ∧ p.operator = "=")) :
    snUpdate transport host table values preds =
      (.error (.queryError "UPDATE requires sys_id in WHERE clause"), []) ∧
    snDelete transport host table preds =
      (.error (.queryError "DELETE requires sys_id in WHERE clause"), []) ∧
    containsSubstr "UPDATE requires sys_id in WHERE clause" "sys_id" = true ∧
    containsSubstr "DELETE requires sys_id in WHERE clause" "sys_id" = true := by
  have hs := snFindSysId_eq_none preds h
  refine ⟨?_, ?_, by decide, by decide⟩
  · simp [snUpdate, hs]
  · simp [snDelete, hs]

/-- Witness for C6: `DELETE FROM incident WHERE priority = 1` (and the
corresponding UPDATE) is rejected with no request issued. -/
theorem servicenow_mutation_without_key_witness :
    snUpdate (fun _ => .ok ()) "https://sn.example" "incident" []
        [⟨"priority", "=", .intV 1⟩] =
      (.error (.queryError "UPDATE requires sys_id in WHERE clause"), []) ∧
    snDelete (fun _ => .ok ()) "https://sn.example" "incident"
        [⟨"priority", "=", .intV 1⟩] =
      (.error (.queryError "DELETE requires sys_id in WHERE clause"), []) := by
  have h := servicenow_mutation_without_key (fun _ => .ok ())
    "https://sn.example" "incident" [] [⟨"priority", "=", .intV 1⟩]
    (by decide)
  exact ⟨h.1, h.2.1⟩

/-! ## Jira adapter (`adapters/jira.py`) — JQL translation

`_predicate_to_jql` and `_build_jql`, embedded verbatim.  The single-char
`str.replace` calls of the LIKE branch (`%`→`""` then `_`→`?`) are the
filter-then-map over characters. -/

/-- The LIKE value cleaning of `_predicate_to_jql`:
`val.replace("%", "").replace("_", "?")`. -/
def jqlCleanLike (s : String) : String :=
  String.mk ((s.data.filter (fun c => c ≠ '%')).map
    (fun c => if c = '_' then '?' else c))

/-- An IN-list member: `f'"{v}"' if isinstance(v, str) else str(v)`. -/
def jqlInMember : PyScalar → String
  | .strV s => "\"" ++ s ++ "\""
  | v => pyStr (.scalar v)

/-- The `op_map` of `_predicate_to_jql`, default `=`. -/
def jqlOpMap (op : String) : String :=
  if op = "=" then "="
  else if op = "!=" then "!="
  else if op = ">" then ">"
  else if op = "<" then "<"
  else if op = ">=" then ">="
  else if op = "<=" then "<="
  else if op = "LIKE" then "~"
  else if op = "IN" then "IN"
  else if op = "IS NULL" then "IS EMPTY"
  else if op = "IS NOT NULL" then "IS NOT EMPTY"
  else "="

/-- `JiraAdapter._predicate_to_jql`.  (On a LIKE whose value is not a
Python `str`, CPython would raise `AttributeError`; the model applies the
cleaning to `str(value)` — no theorem exercises that branch.) -/
def predicateToJql (p : Predicate) : String :=
  let col := p.column
  let op := p.operator
  let jqlOp := jqlOpMap op
  if op = "IS NULL" || op = "IS NOT NULL" then
    col ++ " " ++ jqlOp
  else if op = "LIKE" then
    match p.value with
    | .scalar (.strV s) => col ++ " ~ \"" ++ jqlCleanLike s ++ "\""
    | v => col ++ " ~ \"" ++ jqlCleanLike (pyStr v) ++ "\""
  else if op = "IN" then
    match p.value with
    | .listV vs => col ++ " IN (" ++ String.intercalate ", " (vs.map jqlInMember) ++ ")"
    | .scalar v => col ++ " IN (" ++ pyStr (.scalar v) ++ ")"
  else
    match p.value with
    | .scalar (.strV s) => col ++ " " ++ jqlOp ++ " \"" ++ s ++ "\""
    | v => col ++ " " ++ jqlOp ++ " " ++ pyStr v

/-- `JiraAdapter._build_jql`: AND-join the per-predicate clauses, then
append ` ORDER BY col dir, …` when ordering was requested. -/
def buildJql (preds : List Predicate) (orderBy : List (String × String)) : String :=
  let jqlParts := preds.map predicateToJql
  let jql := if jqlParts.isEmpty then "" else String.intercalate " AND " jqlParts
  if orderBy.isEmpty then jql
  else jql ++ " ORDER BY " ++
    String.intercalate ", " (orderBy.map (fun cd => cd.1 ++ " " ++ cd.2))

/-! ## Claim C8 — JQL translation rules -/

/-- Counterexample to C8 as stated: on a LIKE value containing the SQL
single-character wildcard `_`, the adapter substitutes `?`, so the produced
clause is not `col ~ "<value minus % wildcards>"`. -/
theorem jql_like_underscore_counterexample :
    predicateToJql ⟨"summary", "LIKE", .strV "a_b"⟩ = "summary ~ \"a?b\"" ∧
    predicateToJql ⟨"summary", "LIKE", .strV "a_b"⟩ ≠ "summary ~ \"a_b\"" :=
  ⟨by decide, by decide⟩

/-- C8 (amended): LIKE becomes `col ~ "value"` with `%` wildcards removed
and `_` replaced by `?` (the output never contains `%`); IS NULL becomes
`col IS EMPTY`; IN becomes `col IN (v1, v2)` with string members
double-quoted; string equality values are double-quoted; and a non-empty
`order_by` appends ` ORDER BY col dir, …` to the JQL. -/
theorem jql_translation_amended :
    (∀ col v, predicateToJql ⟨col, "LIKE", .strV v⟩ =
        col ++ " ~ \"" ++ jqlCleanLike v ++ "\"" ∧
      (jqlCleanLike v).data.all (fun c => c ≠ '%') = true) ∧
    (∀ col, predicateToJql ⟨col, "IS NULL", .noneV⟩ = col ++ " IS EMPTY") ∧
    (∀ col vs, predicateToJql ⟨col, "IN", .listV vs⟩ =
        col ++ " IN (" ++ String.intercalate ", " (vs.map jqlInMember) ++ ")") ∧
    (∀ s, jqlInMember (.strV s) = "\"" ++ s ++ "\"") ∧
    (∀ col s, predicateToJql ⟨col, "=", .strV s⟩ = col ++ " = \"" ++ s ++ "\"") ∧
    (∀ preds ob, ob ≠ ([] : List (String × String)) →
      buildJql preds ob =
        buildJql preds [] ++ " ORDER BY " ++
          String.intercalate ", " (ob.map (fun cd => cd.1 ++ " " ++ cd.2))) := by
  have hIsNull : ∀ col : String, predicateToJql ⟨col, "IS NULL", .noneV⟩ = col ++ " IS EMPTY" := by
    intro col
    have h1 : predicateToJql ⟨col, "IS NULL", .noneV⟩ = col ++ " " ++ "IS EMPTY" := rfl
    rw [h1, String.append_assoc]
    exact congrArg (fun t => col ++ t) (by decide)
  have hEq : ∀ col s : String,
      predicateToJql ⟨col, "=", .strV s⟩ = col ++ " = \"" ++ s ++ "\"" := by
    intro col s
    have h1 : predicateToJql ⟨col, "=", .strV s⟩ =
        col ++ " " ++ "=" ++ " \"" ++ s ++ "\"" := rfl
    have h2 : col ++ " " ++ "=" ++ " \"" = col ++ " = \"" := by
      rw [String.append_assoc, String.append_assoc]
      exact congrArg (fun t => col ++ t) (by decide)
    rw [h1, h2]
  refine ⟨?_, hIsNull, fun col vs => rfl, fun s => rfl, hEq, ?_⟩
  · intro col v
    refine ⟨rfl, ?_⟩
    rw [List.all_eq_true]
    intro c hc
    simp only [jqlCleanLike] at hc
    obtain ⟨a, ha, rfl⟩ := List.mem_map.mp hc
    have ha' : a ≠ '%' := by
      have := List.mem_filter.mp ha
      simpa using this.2
    by_cases h_ : a = '_'
    · simp [h_]
    · simp [h_, ha']
  · intro preds ob hob
    cases ob with
    | nil => exact absurd rfl hob
    | cons hd tl => rfl

/-- Witness for the amended C8: concrete translations, including the
spec's `IN and ORDER BY` scenario. -/
theorem jql_translation_amended_witness :
    predicateToJql ⟨"summary", "LIKE", .strV "%Open_1%"⟩ = "summary ~ \"Open?1\"" ∧
    predicateToJql ⟨"assignee", "IS NULL", .noneV⟩ = "assignee IS EMPTY" ∧
    predicateToJql ⟨"status", "IN", .listV [.strV "Open", .strV "In Progress"]⟩ =
      "status IN (\"Open\", \"In Progress\")" ∧
    predicateToJql ⟨"project", "=", .strV "WQL"⟩ = "project = \"WQL\"" ∧
    buildJql [⟨"project", "=", .strV "WQL"⟩] [("created", "DESC")] =
      "project = \"WQL\" ORDER BY created DESC" := by
  refine ⟨(jql_translation_amended.1 "summary" "%Open_1%").1.trans (by decide),
    (jql_translation_amended.2.1 "assignee").trans (by decide),
    (jql_translation_amended.2.2.1 "status"
      [.strV "Open", .strV "In Progress"]).trans (by decide),
    (jql_translation_amended.2.2.2.2.1 "project" "WQL").trans (by decide),
    (jql_translation_amended.2.2.2.2.2 [⟨"project", "=", .strV "WQL"⟩]
      [("created", "DESC")] (by decide)).trans (by decide)⟩

/-! ## Pagination (`servicenow.py::fetch/_fetch_all_pages`, `jira.py::_fetch_with_jql`)

The HTTP layer is abstracted to page-fetch functions; the honest server
models below slice a fixed row list.  `waveql/utils/streaming.py`
(`ParallelFetcher`) is imported by the ServiceNow adapter but its source is
not in the repository, so it is modelled from the spec. -/

/-- Python truthiness of an optional non-negative int argument
(`if limit:`). -/
def optTruthy : Option Nat → Bool
  | none => false
  | some n => n ≠ 0

/-- Modelled from the spec: `ParallelFetcher.fetch_parallel` of
`waveql/utils/streaming.py`, which is missing from the sources.  Spec §4.5:
pages are fetched from `start_page` upward with `stop_on_empty`, results are
concatenated in page-index order, and fetching stops at the first short
page.  `fuel` bounds the number of pages (the worker pool is finite). -/
def fetchParallel {α : Type} (fetchPage : Nat → List α) (pageSize : Nat) :
    Nat → Nat → List α
  | _, 0 => []
  | page, fuel + 1 =>
    let batch := fetchPage page
    if batch.length < pageSize then batch
    else batch ++ fetchParallel fetchPage pageSize (page + 1) fuel

/-- `ServiceNowAdapter._fetch_all_pages`: fetch the `sysparm_offset=0` page;
if it is short, return it as is; otherwise fan out pages `1..` through the
parallel fetcher (page `n` at offset `n * page_size`) and truncate the
concatenation to the limit when one was given.  `fetchPage` takes the
`sysparm_offset`; the page size is the `sysparm_limit` already in the
params. -/
def snFetchAllPages {α : Type} (fetchPage : Nat → List α) (pageSize : Nat)
    (limit : Option Nat) (fuel : Nat) : List α :=
  let firstPage := fetchPage 0
  if firstPage.length < pageSize then firstPage
  else
    let rest := fetchParallel (fun n => fetchPage (n * pageSize)) pageSize 1 fuel
    let all := firstPage ++ rest
    if optTruthy limit then all.take (limit.getD 0) else all

/-- `ServiceNowAdapter.fetch`, SELECT path (no virtual table, no
stats/aggregates): `sysparm_limit = min(limit, page_size)` when a limit is
given (else `page_size`); a single request when `limit <= page_size`,
otherwise the paginated fetch.  `fetchPage off lim` models `_fetch_page`
with `sysparm_offset = off` and `sysparm_limit = lim`. -/
def snFetch {α : Type} (fetchPage : Nat → Nat → List α) (pageSize : Nat)
    (limit : Option Nat) (fuel : Nat) : List α :=
  let sysparmLimit :=
    if optTruthy limit then min (limit.getD 0) pageSize else pageSize
  if optTruthy limit && limit.getD 0 ≤ pageSize then
    fetchPage 0 sysparmLimit
  else
    snFetchAllPages (fun off => fetchPage off sysparmLimit) sysparmLimit limit fuel

/-- One round of the `while True` pagination loop of
`JiraAdapter._fetch_with_jql`: POST `startAt = (offset or 0) + fetched`,
`maxResults = maxR`; extend with the returned issues; break when the
server's `total` is reached, the limit is reached, or the page is shorter
than the adapter's page size.  Returns the issues accumulated from this
round on and the request bodies `(startAt, maxResults)` issued, in order. -/
def jiraFetchLoop {α : Type} (server : Nat → Nat → List α × Nat)
    (pageSize maxR off : Nat) (limit : Option Nat) :
    Nat → Nat → List α × List (Nat × Nat)
  | 0, _ => ([], [])
  | fuel + 1, fetched =>
    let startAt := off + fetched
    let page := server startAt maxR
    let issues := page.1
    let total := page.2
    let fetched' := fetched + issues.length
    if total ≤ fetched' || (optTruthy limit && limit.getD 0 ≤ fetched')
        || issues.length < pageSize then
      (issues, [(startAt, maxR)])
    else
      let rest := jiraFetchLoop server pageSize maxR off limit fuel fetched'
      (issues ++ rest.1, (startAt, maxR) :: rest.2)

/-- `JiraAdapter.__init__` + `_fetch_with_jql`: the effective page size is
`min(page_size, 100)` (Jira's maximum); the request body carries
`maxResults = min(limit or page_size, page_size)`; after the loop the issues
are flattened (`_flatten_issue`, abstracted as `flatten`) and truncated to
the limit. -/
def jiraFetchWithJql {α β : Type} (server : Nat → Nat → List α × Nat)
    (flatten : α → β) (pageSizeCtor : Nat) (limit offset : Option Nat)
    (fuel : Nat) : List β × List (Nat × Nat) :=
  let P := min pageSizeCtor 100
  let maxR := min (if optTruthy limit then limit.getD 0 else P) P
  let out := jiraFetchLoop server P maxR (offset.getD 0) limit fuel 0
  let records := out.1.map flatten
  (if optTruthy limit then records.take (limit.getD 0) else records, out.2)

/-- An honest paginated server over a fixed row list, Jira shape: returns
the slice `rows[startAt : startAt + maxResults]` and the true total. -/
def sliceServer {α : Type} (rows : List α) (startAt maxResults : Nat) :
    List α × Nat :=
  ((rows.drop startAt).take maxResults, rows.length)

/-- An honest paginated server, ServiceNow shape: `sysparm_offset` /
`sysparm_limit` slice the matching rows. -/
def slicePage {α : Type} (rows : List α) (off lim : Nat) : List α :=
  (rows.drop off).take lim

/-! ## Claim C7 — pagination exactness -/

theorem fetchParallel_slice {α : Type} (rows : List α) (P : Nat) :
    ∀ (fuel s : Nat), (rows.drop (s * P)).length ≤ fuel * P →
      fetchParallel (fun n => slicePage rows (n * P) P) P s fuel =
        rows.drop (s * P) := by
  intro fuel
  induction fuel with
  | zero =>
    intro s h
    have hz : (rows.drop (s * P)).length = 0 := by omega
    simp only [fetchParallel]
    exact (List.eq_nil_of_length_eq_zero hz).symm
  | succ fuel ih =>
    intro s h
    simp only [fetchParallel, slicePage]
    rw [List.length_drop] at h
    have hsm : (s + 1) * P = s * P + P := Nat.succ_mul s P
    have hfm : (fuel + 1) * P = fuel * P + P := Nat.succ_mul fuel P
    by_cases hshort : ((rows.drop (s * P)).take P).length < P
    · rw [if_pos hshort]
      apply List.take_of_length_le
      rw [List.length_take, List.length_drop] at hshort
      rw [List.length_drop]
      omega
    · rw [if_neg hshort]
      rw [List.length_take, List.length_drop] at hshort
      have hrec := ih (s + 1) (by rw [List.length_drop]; omega)
      simp only [slicePage] at hrec
      rw [hrec, hsm, ← List.drop_drop, List.take_append_drop]

theorem snFetch_exact {α : Type} (rows : List α) (ps L fuel : Nat)
    (hps : 1 ≤ ps) (hL : 1 ≤ L) (hfuel : rows.length ≤ fuel) :
    snFetch (slicePage rows) ps (some L) fuel = rows.take (min L rows.length) := by
  have hopt : optTruthy (some L) = true := by
    simp only [optTruthy, decide_eq_true_eq]
    omega
  by_cases hcase : L ≤ ps
  · have hstep : snFetch (slicePage rows) ps (some L) fuel =
        slicePage rows 0 (min L ps) := by
      simp only [snFetch, hopt, Option.getD_some, Bool.true_and, if_true]
      rw [if_pos (by simpa using hcase)]
    rw [hstep]
    simp only [slicePage, List.drop_zero]
    rw [List.take_eq_take]
    omega
  · have hmin : min L ps = ps := by omega
    have hstep : snFetch (slicePage rows) ps (some L) fuel =
        snFetchAllPages (fun off => slicePage rows off ps) ps (some L) fuel := by
      simp only [snFetch, hopt, Option.getD_some, Bool.true_and, if_true, hmin]
      rw [if_neg (by simpa using hcase)]
    rw [hstep]
    simp only [snFetchAllPages, slicePage, List.drop_zero]
    by_cases hshort : (rows.take ps).length < ps
    · rw [if_pos hshort]
      rw [List.length_take] at hshort
      rw [List.take_eq_take]
      omega
    · rw [if_neg hshort]
      rw [List.length_take] at hshort
      have hrest : fetchParallel (fun n => (rows.drop (n * ps)).take ps) ps 1 fuel
          = rows.drop (1 * ps) := by
        have hfp := fetchParallel_slice rows ps fuel 1
        simp only [slicePage] at hfp
        apply hfp
        rw [List.length_drop]
        have hfle : fuel ≤ fuel * ps := Nat.le_mul_of_pos_right fuel (by omega)
        omega
      rw [hrest, Nat.one_mul, hopt]
      rw [if_pos rfl, Option.getD_some, List.take_append_drop, List.take_eq_take]
      omega

theorem jiraFetchLoop_slice {α : Type} (rows : List α) (P L : Nat)
    (hP : 1 ≤ P) (hL : 1 ≤ L) :
    ∀ (fuel fetched : Nat), rows.length ≤ fetched + fuel →
      ∃ f, fetched ≤ f ∧ min L rows.length ≤ f ∧
        (jiraFetchLoop (sliceServer rows) P (min L P) 0 (some L) fuel fetched).1 =
          (rows.drop fetched).take (f - fetched) := by
  intro fuel
  induction fuel with
  | zero =>
    intro fetched h
    refine ⟨max fetched rows.length, Nat.le_max_left _ _, ?_, ?_⟩
    · have := Nat.min_le_right L rows.length
      have := Nat.le_max_right fetched rows.length
      omega
    · have hd : rows.drop fetched = [] :=
        List.eq_nil_of_length_eq_zero (by rw [List.length_drop]; omega)
      simp only [jiraFetchLoop, hd, List.take_nil]
  | succ fuel ih =>
    intro fetched h
    have hIlen : ((rows.drop fetched).take (min L P)).length =
        min (min L P) (rows.length - fetched) := by
      rw [List.length_take, List.length_drop]
    simp only [jiraFetchLoop, sliceServer, Nat.zero_add]
    split
    case isTrue hbrk =>
      simp only [Bool.or_eq_true, decide_eq_true_eq, Bool.and_eq_true,
        optTruthy, Option.getD_some, hIlen] at hbrk
      refine ⟨fetched + min (min L P) (rows.length - fetched), by omega, by omega, ?_⟩
      rw [List.take_eq_take, List.length_drop]
      omega
    case isFalse hbrk =>
      simp only [Bool.or_eq_true, decide_eq_true_eq, Bool.and_eq_true,
        optTruthy, Option.getD_some, hIlen, not_or, not_lt] at hbrk
      have hmLP : min L P = P := by omega
      have hdlen : P ≤ rows.length - fetched := by omega
      have hIlen' : ((rows.drop fetched).take (min L P)).length = P := by
        rw [List.length_take, List.length_drop]
        omega
      obtain ⟨f, hf1, hf2, hf3⟩ := ih (fetched + ((rows.drop fetched).take (min L P)).length)
        (by rw [hIlen']; omega)
      refine ⟨f, by omega, hf2, ?_⟩
      rw [hf3, hIlen', hmLP]
      have hsplit : (rows.drop (fetched + P)) = (rows.drop fetched).drop P := by
        rw [List.drop_drop]
      rw [hsplit]
      have harith : f - fetched = P + (f - (fetched + P)) := by
        rw [hIlen'] at hf1
        omega
      rw [harith, List.take_add]

theorem jiraFetchWithJql_exact {α β : Type} (rows : List α) (flatten : α → β)
    (ps L fuel : Nat) (hps : 1 ≤ ps) (hL : 1 ≤ L) (hfuel : rows.length ≤ fuel) :
    (jiraFetchWithJql (sliceServer rows) flatten ps (some L) none fuel).1 =
      (rows.take (min L rows.length)).map flatten := by
  have hL0 : L ≠ 0 := by omega
  obtain ⟨f, hf0, hf2, hf3⟩ := jiraFetchLoop_slice rows (min ps 100) L
    (by omega) hL fuel 0 (by omega)
  have hdec : (decide (L ≠ 0)) = true := decide_eq_true hL0
  simp only [jiraFetchWithJql, optTruthy, Option.getD_some, Option.getD_none, hdec,
    eq_self_iff_true, if_true]
  rw [hf3]
  simp only [List.drop_zero, Nat.sub_zero]
  rw [← List.map_take, List.take_take]
  congr 1
  rw [List.take_eq_take]
  omega

/-- C7: for a fetch with `limit = L` against an honest paginated server
exposing `T = rows.length` matching rows, both the ServiceNow fetch (single
page or paginated) and the Jira JQL fetch return exactly `min(L, T)` rows,
concatenated in the server's cross-page order (a prefix of `rows`) — in
particular never more than `L` rows. -/
theorem pagination_exact_min_limit_total {α β : Type} (rows : List α)
    (flatten : α → β) (psSN psJ L fuel : Nat)
    (h1 : 1 ≤ psSN) (h2 : 1 ≤ psJ) (hL : 1 ≤ L) (hfuel : rows.length ≤ fuel) :
    snFetch (slicePage rows) psSN (some L) fuel = rows.take (min L rows.length) ∧
    (snFetch (slicePage rows) psSN (some L) fuel).length = min L rows.length ∧
    (jiraFetchWithJql (sliceServer rows) flatten psJ (some L) none fuel).1 =
      (rows.take (min L rows.length)).map flatten ∧
    (jiraFetchWithJql (sliceServer rows) flatten psJ (some L) none fuel).1.length ≤ L := by
  have hsn := snFetch_exact rows psSN L fuel h1 hL hfuel
  have hj := jiraFetchWithJql_exact rows flatten psJ L fuel h2 hL hfuel
  refine ⟨hsn, ?_, hj, ?_⟩
  · rw [hsn, List.length_take]
    omega
  · rw [hj, List.length_map, List.length_take]
    omega

/-- Witness for C7: five rows, page size 2, limit 3 — both adapters return
exactly the first three rows. -/
theorem pagination_exact_min_limit_total_witness :
    snFetch (slicePage [10, 20, 30, 40, 50]) 2 (some 3) 6 = [10, 20, 30] ∧
    (jiraFetchWithJql (sliceServer [10, 20, 30, 40, 50]) (fun x => x) 2
        (some 3) none 6).1 = [10, 20, 30] := by
  have h := pagination_exact_min_limit_total [10, 20, 30, 40, 50] (fun x => x)
    2 2 3 6 (by decide) (by decide) (by decide) (by decide)
  exact ⟨h.1.trans (by decide), (h.2.2.1).trans (by decide)⟩

/-! ## Claim C9 — Jira page-size cap -/

theorem jiraFetchLoop_requests {α : Type} (server : Nat → Nat → List α × Nat)
    (P maxR off : Nat) (limit : Option Nat) :
    ∀ fuel fetched,
      ((jiraFetchLoop server P maxR off limit fuel fetched).2).all
        (fun r => r.2 = maxR) = true := by
  intro fuel
  induction fuel with
  | zero => intro fetched; rfl
  | succ fuel ih =>
    intro fetched
    simp only [jiraFetchLoop]
    split
    · simp
    · simp only [List.all_cons, ih, Bool.and_true]
      simp

/-- C9: whatever `page_size` the Jira adapter is constructed with, the
effective page size `min(page_size, 100)` is at most 100, and every JQL
search request body issued by the pagination loop carries
`maxResults ≤ 100`. -/
theorem jira_maxResults_capped {α β : Type} (server : Nat → Nat → List α × Nat)
    (flatten : α → β) (ps : Nat) (limit offset : Option Nat) (fuel : Nat) :
    min ps 100 ≤ 100 ∧
    ((jiraFetchWithJql server flatten ps limit offset fuel).2.all
      (fun r => r.2 ≤ 100)) = true := by
  refine ⟨Nat.min_le_right _ _, ?_⟩
  have hAll := jiraFetchLoop_requests server (min ps 100)
    (min (if optTruthy limit then limit.getD 0 else min ps 100) (min ps 100))
    (offset.getD 0) limit fuel 0
  rw [List.all_eq_true] at hAll ⊢
  intro r hr
  have hrm := hAll r (by simpa [jiraFetchWithJql] using hr)
  simp only [decide_eq_true_eq] at hrm ⊢
  rw [hrm]
  omega

end WaveQL
